import Mathlib

/-!
Shallow embedding of the task-orchestration engine of this repository
(`src/agent/graph.py`, `src/agent/utils/nodes.py`, `src/agent/utils/sql_agent.py`,
`src/agent/utils/state.py`).

External collaborators (the language-generation service, the SQLite store and
the Mongo store) are modelled as oracle parameters: a call that can raise a
Python exception is a value of `PyOutcome`, and a Python-level value that may
or may not be a dict is a value of `PyResult`.  Machine-level details (JSON
text, logging) that no claim touches are elided; everything a claim inspects
(task lists, sort order, result entries, statuses, error messages, connection
events, commit events) is modelled explicitly from the source.
-/

namespace Agent

/-- Python string whitespace test, covering the characters `str.strip`
removes for the ASCII queries at issue. -/
def pyIsSpace (c : Char) : Bool :=
  c = ' ' || c = '\t' || c = '\n' || c = '\r' || c = '\x0b' || c = '\x0c'

/-- Model of Python `str.strip()`: drop whitespace from both ends. -/
def pyStrip (s : String) : String :=
  ⟨((s.data.dropWhile pyIsSpace).reverse.dropWhile pyIsSpace).reverse⟩

/-- Model of Python `str.upper()` on the ASCII strings at issue. -/
def pyUpper (s : String) : String :=
  ⟨s.data.map Char.toUpper⟩

/-- Model of Python `s.startswith(p)`. -/
def pyStarts (s p : String) : Bool :=
  p.data.isPrefixOf s.data

/-- One decomposed task, as produced by `supervisor_node` from the parsed
language-model JSON (fields of the `tasks` array in `nodes.py`). -/
structure Task where
  agent : String
  taskDefinition : String
  purpose : String
  priority : Int
  dependencies : List Nat
deriving DecidableEq

/-- The `error_handling` object inside the decomposition `context`. -/
structure ErrorHandling where
  retry_count : Int
  fallback_strategy : String
deriving DecidableEq

/-- The `context` object of the parsed decomposition JSON. -/
structure Context where
  required_data : List String
  relationships : List String
  error_handling : ErrorHandling
deriving DecidableEq

/-- A parsed decomposition (`task_analysis` in `supervisor_node`):
the result of `json.loads(response.content)` when it succeeds and the
`tasks` / `context` keys are present. -/
structure Analysis where
  tasks : List Task
  context : Context
deriving DecidableEq

/-- The comparison used by
`sorted(task_analysis["tasks"], key=lambda x: x["priority"], reverse=True)`:
task `a` may come before task `b` when `b`'s priority is at most `a`'s. -/
def taskGe (a b : Task) : Prop := b.priority ≤ a.priority

instance : DecidableRel taskGe := fun a b =>
  inferInstanceAs (Decidable (b.priority ≤ a.priority))

instance : IsTotal Task taskGe := ⟨fun a b => le_total b.priority a.priority⟩

instance : IsTrans Task taskGe :=
  ⟨fun _ _ _ h1 h2 => le_trans h2 h1⟩

/-- Model of `sorted(tasks, key=lambda x: x["priority"], reverse=True)`
(`nodes.py`, `supervisor_node`): Python's sort is stable, and with
`reverse=True` it orders by priority descending keeping ties in original
order; `List.insertionSort` with `taskGe` computes exactly that order. -/
def sortTasks (l : List Task) : List Task := List.insertionSort taskGe l

/-- The `analysis` object `supervisor_node` emits alongside the tasks. -/
structure AnalysisSummary where
  total_tasks : Nat
  task_types : List String
  highest_priority_task : Option Task
deriving DecidableEq

/-- The JSON shape of the single assistant message `supervisor_node`
returns: the normal decomposition shape, or the fatal-error shape emitted
by its `except` handler. -/
inductive SupervisorOutput
  | success (tasks : List Task) (context : Context) (current_task_index : Nat)
      (error_handling : ErrorHandling) (analysis : AnalysisSummary)
  | error (msg : String) (retry_count : Nat)
deriving DecidableEq

/-- Model of `supervisor_node` (`nodes.py` lines 98-193).  The language
model call and `json.loads` are abstracted into the `parsed` argument:
`.ok a` is a successfully parsed analysis, `.error e` is any exception
`str(e)` raised in the `try` block (unparseable JSON, missing keys, LLM
failure).  On success the tasks are sorted by priority descending and the
full decomposition shape is emitted; on failure the fatal shape is. -/
def supervisor_node (parsed : Except String Analysis) : SupervisorOutput :=
  match parsed with
  | .error e => .error ("Failed to analyze query: " ++ e) 0
  | .ok a =>
    let sorted_tasks := sortTasks a.tasks
    .success sorted_tasks a.context 0 a.context.error_handling
      ⟨sorted_tasks.length, (sorted_tasks.map (fun t => t.agent)).dedup,
        sorted_tasks.head?⟩

/-- The task list the supervisor's output schedules (empty for the fatal
error shape, which schedules nothing). -/
def SupervisorOutput.taskList : SupervisorOutput → List Task
  | .success tasks _ _ _ _ => tasks
  | .error _ _ => []

/-- Whether the supervisor's output is the fatal error shape. -/
def SupervisorOutput.isFatal : SupervisorOutput → Bool
  | .success _ _ _ _ _ => false
  | .error _ _ => true

example : sortTasks [⟨"a", "x", "y", 1, []⟩, ⟨"b", "x", "y", 5, []⟩]
    = [⟨"b", "x", "y", 5, []⟩, ⟨"a", "x", "y", 1, []⟩] := by decide

theorem sortTasks_perm (l : List Task) : List.Perm (sortTasks l) l :=
  List.perm_insertionSort taskGe l

theorem sortTasks_sorted (l : List Task) : List.Sorted taskGe (sortTasks l) :=
  List.sorted_insertionSort taskGe l

theorem orderedInsert_all_ge (a : Task) (l : List Task) (h : ∀ c ∈ l, taskGe a c) :
    List.orderedInsert taskGe a l = a :: l := by
  cases l with
  | nil => rfl
  | cons c cs => exact List.orderedInsert_of_le taskGe cs (h c (List.mem_cons_self c cs))

theorem filter_orderedInsert_sorted (p : Task → Bool) (a : Task) :
    ∀ l : List Task, List.Sorted taskGe l →
      (List.orderedInsert taskGe a l).filter p =
        if p a then List.orderedInsert taskGe a (l.filter p) else l.filter p := by
  intro l
  induction l with
  | nil =>
    intro _
    by_cases hp : p a <;> simp [List.orderedInsert, List.filter, hp]
  | cons b bs ih =>
    intro hs
    rcases List.sorted_cons.mp hs with ⟨hb, hbs⟩
    by_cases hab : taskGe a b
    · have hall : ∀ c ∈ (b :: bs).filter p, taskGe a c := by
        intro c hc
        rcases List.mem_cons.mp (List.mem_of_mem_filter hc) with h1 | h2
        · exact h1 ▸ hab
        · exact Trans.trans hab (hb c h2)
      rw [List.orderedInsert_of_le taskGe bs hab]
      by_cases hp : p a
      · rw [orderedInsert_all_ge a _ hall]
        simp [List.filter, hp]
      · simp [List.filter, hp]
    · have hstep : List.orderedInsert taskGe a (b :: bs)
          = b :: List.orderedInsert taskGe a bs := by
        simp [List.orderedInsert, hab]
      rw [hstep]
      by_cases hpb : p b
      · by_cases hp : p a
        · have : ¬ taskGe a b := hab
          simp only [List.filter, hpb, cond_true, ih hbs, hp, if_true]
          simp [List.orderedInsert, hab, hpb]
        · simp [List.filter, hpb, ih hbs, hp]
      · by_cases hp : p a
        · simp [List.filter, hpb, ih hbs, hp]
        · simp [List.filter, hpb, ih hbs, hp]

theorem filter_sortTasks (p : Task → Bool) (l : List Task) :
    (sortTasks l).filter p = sortTasks (l.filter p) := by
  induction l with
  | nil => rfl
  | cons a l ih =>
    show (List.orderedInsert taskGe a (List.insertionSort taskGe l)).filter p
        = sortTasks ((a :: l).filter p)
    rw [filter_orderedInsert_sorted p a _ (List.sorted_insertionSort taskGe l)]
    by_cases hp : p a
    · simp only [List.filter, hp, cond_true]
      show List.orderedInsert taskGe a ((sortTasks l).filter p)
          = List.orderedInsert taskGe a (List.insertionSort taskGe (l.filter p))
      rw [ih]
      rfl
    · simp only [List.filter, hp, cond_false]
      exact ih

theorem sortTasks_of_all_ge :
    ∀ l : List Task, (∀ x ∈ l, ∀ y ∈ l, taskGe x y) → sortTasks l = l := by
  intro l
  induction l with
  | nil => intro _; rfl
  | cons a l ih =>
    intro h
    show List.orderedInsert taskGe a (List.insertionSort taskGe l) = a :: l
    have hl : List.insertionSort taskGe l = l :=
      ih fun x hx y hy =>
        h x (List.mem_cons_of_mem a hx) y (List.mem_cons_of_mem a hy)
    rw [hl]
    exact orderedInsert_all_ge a l fun c hc =>
      h a (List.mem_cons_self a l) c (List.mem_cons_of_mem a hc)

theorem sortTasks_stable (l : List Task) (p : Int) :
    (sortTasks l).filter (fun t => t.priority == p)
      = l.filter (fun t => t.priority == p) := by
  rw [filter_sortTasks]
  apply sortTasks_of_all_ge
  intro x hx y hy
  have hxp : x.priority = p := by
    have := (List.mem_filter.mp hx).2
    exact eq_of_beq this
  have hyp : y.priority = p := by
    have := (List.mem_filter.mp hy).2
    exact eq_of_beq this
  show y.priority ≤ x.priority
  rw [hxp, hyp]

theorem map_orderedInsert (f : Task → Task) (hf : ∀ t, (f t).priority = t.priority)
    (a : Task) : ∀ l, (List.orderedInsert taskGe a l).map f
      = List.orderedInsert taskGe (f a) (l.map f) := by
  intro l
  induction l with
  | nil => rfl
  | cons b bs ih =>
    have hiff : taskGe (f a) (f b) ↔ taskGe a b := by
      show (f b).priority ≤ (f a).priority ↔ b.priority ≤ a.priority
      rw [hf a, hf b]
    by_cases hab : taskGe a b
    · simp [List.orderedInsert, hab, hiff.mpr hab]
    · have : ¬ taskGe (f a) (f b) := fun hc => hab (hiff.mp hc)
      simp [List.orderedInsert, hab, this, ih]

theorem map_sortTasks (f : Task → Task) (hf : ∀ t, (f t).priority = t.priority)
    (l : List Task) : sortTasks (l.map f) = (sortTasks l).map f := by
  induction l with
  | nil => rfl
  | cons a l ih =>
    show List.orderedInsert taskGe (f a) (List.insertionSort taskGe (l.map f))
        = (List.orderedInsert taskGe a (List.insertionSort taskGe l)).map f
    rw [map_orderedInsert f hf a]
    show List.orderedInsert taskGe (f a) (sortTasks (l.map f)) = _
    rw [ih]
    rfl

/-- Outcome of calling a Python function that may raise: it either returns
a value or raises an exception with message `str(e)`. -/
inductive PyOutcome (α : Type)
  | ok (a : α)
  | raise (msg : String)
deriving DecidableEq

/-- Whether a call raised. -/
def PyOutcome.isRaise {α : Type} : PyOutcome α → Bool
  | .ok _ => false
  | .raise _ => true

/-- Model of `SQLAgent._is_read_query` (`sql_agent.py` lines 23-28):
strip, uppercase, and test the three read-only keywords. -/
def is_read_query (sql : String) : Bool :=
  let normalized_sql := pyUpper (pyStrip sql)
  pyStarts normalized_sql "SELECT" || pyStarts normalized_sql "PRAGMA" ||
    pyStarts normalized_sql "EXPLAIN"

/-- The inline check `execute_query` actually performs before choosing the
fetch-rows branch (`sql_agent.py` line 79):
`sql_query.strip().upper().startswith(('SELECT', 'PRAGMA'))`.
Unlike `is_read_query` it does not test `EXPLAIN`. -/
def exec_read_check (sql : String) : Bool :=
  let normalized_sql := pyUpper (pyStrip sql)
  pyStarts normalized_sql "SELECT" || pyStarts normalized_sql "PRAGMA"

/-- Observable events on SQLite connections: `acquire` is
`sqlite3.connect`, `use` is a cursor operation on the connection,
`commit` is `conn.commit()`, `release` is `conn.close()`.  Connections are
numbered in order of creation. -/
inductive ConnEvent
  | acquire (id : Nat)
  | use (id : Nat)
  | commit (id : Nat)
  | release (id : Nat)
deriving DecidableEq

/-- The connection a `ConnEvent` concerns. -/
def ConnEvent.connId : ConnEvent → Nat
  | .acquire i => i
  | .use i => i
  | .commit i => i
  | .release i => i

/-- Model of the `_get_connection` context manager (`sql_agent.py` lines
13-21) and of `get_sqlite_connection` (`nodes.py` lines 31-39): connect,
run the body with the fresh connection `n`, and close in a `finally`
block, so the `release` event is emitted whether the body returns or
raises. -/
def withConn {α : Type} (n : Nat) (body : Nat → PyOutcome α × List ConnEvent) :
    PyOutcome α × List ConnEvent :=
  let r := body n
  (r.1, ConnEvent.acquire n :: (r.2 ++ [ConnEvent.release n]))

/-- What the SQLite store returns for one executed statement: the cursor's
column names and fetched rows, and `cursor.rowcount`.  Row values are kept
abstract in `σ`. -/
structure StoreResult (σ : Type) where
  columns : List String
  rows : List (List σ)
  rowcount : Int
deriving DecidableEq

/-- The dict `SQLAgent.execute_query` returns (`sql_agent.py` lines
83-96 and 104-108): a success with a row set, a success with a
rows-affected message for the mutating branch, or an error dict carrying
the raw exception text and the query when it was bound. -/
inductive SqlResultDict (σ : Type)
  | success_rows (query : String) (results : List (List (String × σ)))
  | success_message (query : String) (rowsAffected : Int)
  | error (query : Option String) (msg : String)
deriving DecidableEq

/-- The `status` field of the result dict. -/
def SqlResultDict.status {σ : Type} : SqlResultDict σ → String
  | .success_rows _ _ => "success"
  | .success_message _ _ => "success"
  | .error _ _ => "error"

/-- Model of `_fetch_schema` inside `_get_table_schema` (`sql_agent.py`
lines 30-41): open a fresh connection, read the `sqlite_master` rows
(abstracted as the oracle `master`), join them with newlines, close the
connection on every exit path. -/
def fetch_schema (master : PyOutcome (List String)) (n : Nat) :
    PyOutcome String × List ConnEvent :=
  withConn n (fun cid =>
    match master with
    | .raise m => (.raise m, [ConnEvent.use cid])
    | .ok schemas => (.ok (String.intercalate "\n" schemas), [ConnEvent.use cid]))

/-- Model of `_execute_and_fetch` (`sql_agent.py` lines 72-96): open a
fresh connection, execute the query against the store oracle, then for
`SELECT`/`PRAGMA` queries fetch rows and zip them with the column names,
and for all other queries commit and report `cursor.rowcount`.  The
connection is closed on every exit path. -/
def execute_and_fetch {σ : Type} (store : String → PyOutcome (StoreResult σ))
    (sql_query : String) (n : Nat) :
    PyOutcome (SqlResultDict σ) × List ConnEvent :=
  withConn n (fun cid =>
    match store sql_query with
    | .raise m => (.raise m, [ConnEvent.use cid])
    | .ok r =>
      if exec_read_check sql_query then
        (.ok (.success_rows sql_query (r.rows.map (fun row => r.columns.zip row))),
          [ConnEvent.use cid])
      else
        (.ok (.success_message sql_query r.rowcount),
          [ConnEvent.use cid, ConnEvent.commit cid]))

/-- The `try` block of `SQLAgent.execute_query` (`sql_agent.py` lines
66-100), with exceptions still propagating: fetch the schema (one
connection), ask the language model for a query (the `llm` oracle, whose
reply is stripped), then execute it (a second connection).  Returns the
outcome, the SQL query if it was bound when an exception arose (the
`'sql_query' in locals()` test of line 106), the connection events, and
the next fresh connection number. -/
def execute_query_body {σ : Type} (master : PyOutcome (List String))
    (llm : String → String → PyOutcome String)
    (store : String → PyOutcome (StoreResult σ)) (prompt : String) (n : Nat) :
    PyOutcome (SqlResultDict σ) × Option String × List ConnEvent × Nat :=
  match fetch_schema master n with
  | (.raise m, tr) => (.raise m, none, tr, n + 1)
  | (.ok schema, tr) =>
    match llm schema prompt with
    | .raise m => (.raise m, none, tr, n + 1)
    | .ok content =>
      let sql_query := pyStrip content
      match execute_and_fetch store sql_query (n + 1) with
      | (.raise m, tr2) => (.raise m, some sql_query, tr ++ tr2, n + 2)
      | (.ok d, tr2) => (.ok d, some sql_query, tr ++ tr2, n + 2)

/-- Model of `SQLAgent.execute_query` (`sql_agent.py` lines 65-108): the
`try` body above wrapped in the catch-all `except` handler, which turns
any raised exception into an error dict carrying `str(e)` and the bound
query.  The returned value is always a dict, never a raised exception. -/
def execute_query {σ : Type} (master : PyOutcome (List String))
    (llm : String → String → PyOutcome String)
    (store : String → PyOutcome (StoreResult σ)) (prompt : String) (n : Nat) :
    SqlResultDict σ × List ConnEvent × Nat :=
  match execute_query_body master llm store prompt n with
  | (.ok d, _, tr, n2) => (d, tr, n2)
  | (.raise m, sq, tr, n2) => (.error sq m, tr, n2)

/-- Sequential execution of a list of task definitions through
`execute_query`, threading the connection counter, as the loop in
`sql_agent_node` does. -/
def run_sql_defs {σ : Type} (master : PyOutcome (List String))
    (llm : String → String → PyOutcome String)
    (store : String → PyOutcome (StoreResult σ)) :
    List String → Nat → List (SqlResultDict σ × List ConnEvent) × Nat
  | [], n => ([], n)
  | d :: ds, n =>
    let r := execute_query master llm store d n
    let rest := run_sql_defs master llm store ds r.2.2
    ((r.1, r.2.1) :: rest.1, rest.2)

/-- A Python value returned by an executor call, as the node code
inspects it: a dict, a non-dict value, or a raised exception. -/
inductive PyResult (α : Type)
  | dict (d : α)
  | nondict
  | raise (msg : String)
deriving DecidableEq

/-- Whether the executor call raised. -/
def PyResult.isRaise {α : Type} : PyResult α → Bool
  | .raise _ => true
  | _ => false

/-- The outcome field of one entry of `sql_results` / `nosql_results`:
either a `result` key with the executor's dict or an `error` key with a
message. -/
inductive EntryOutcome (α : Type)
  | result (d : α)
  | error (msg : String)
deriving DecidableEq

/-- One entry of `sql_results` / `nosql_results`: the task together with
its `result` or `error` field. -/
structure TaskEntry (α : Type) where
  task : Task
  outcome : EntryOutcome α
deriving DecidableEq

/-- Whether the entry is a failure record. -/
def TaskEntry.isFailure {α : Type} (e : TaskEntry α) : Bool :=
  match e.outcome with
  | .error _ => true
  | .result _ => false

/-- The per-task loop body of `sql_agent_node` (`nodes.py` lines 211-232):
a dict result is recorded under `result`, a non-dict result under `error`
with the fixed message, and a raised exception under `error` with
`str(e)`. -/
def runTaskSql {α : Type} (ex : Task → PyResult α) (t : Task) : TaskEntry α :=
  match ex t with
  | .dict d => ⟨t, .result d⟩
  | .nondict => ⟨t, .error "Invalid result type from SQL agent"⟩
  | .raise m => ⟨t, .error m⟩

/-- The per-task loop body of `nosql_agent_node` (`nodes.py` lines
286-312); the JSON round-trip through `MongoJSONEncoder` is folded into
the executor oracle. -/
def runTaskNoSql {α : Type} (ex : Task → PyResult α) (t : Task) : TaskEntry α :=
  match ex t with
  | .dict d => ⟨t, .result d⟩
  | .nondict => ⟨t, .error "Invalid result type from NoSQL agent"⟩
  | .raise m => ⟨t, .error m⟩

/-- Test for the tasks `sql_agent_node` selects (`nodes.py` line 208). -/
def isSqlTask (t : Task) : Bool := t.agent == "sql_agent"

/-- Test for the tasks `nosql_agent_node` selects (`nodes.py` line 283). -/
def isNoSqlTask (t : Task) : Bool := t.agent == "nosql_agent"

/-- The `sql_results` list `sql_agent_node` builds from the task list of
the analysis it received: the sub-list of tasks tagged `sql_agent`, each
run through the executor. -/
def sql_results {α : Type} (ex : Task → PyResult α) (tasks : List Task) :
    List (TaskEntry α) :=
  (tasks.filter isSqlTask).map (runTaskSql ex)

/-- The `nosql_results` list `nosql_agent_node` builds. -/
def nosql_results {α : Type} (ex : Task → PyResult α) (tasks : List Task) :
    List (TaskEntry α) :=
  (tasks.filter isNoSqlTask).map (runTaskNoSql ex)

/-- The JSON shape of the assistant message an executor node returns
(`nodes.py` lines 238-249 and 254-265): the report shape with a `status`
field and the results list, or the fatal shape from the node-level
`except` handler. -/
inductive NodeOutput (α : Type)
  | report (status : String) (results : List (TaskEntry α)) (original : Analysis)
  | fatal (msg : String) (retry_count : Nat)
deriving DecidableEq

/-- The `status` field of a node output, when the report shape was
produced. -/
def NodeOutput.statusOf {α : Type} : NodeOutput α → Option String
  | .report s _ _ => some s
  | .fatal _ _ => none

/-- The results list of a node output (empty for the fatal shape). -/
def NodeOutput.resultsOf {α : Type} : NodeOutput α → List (TaskEntry α)
  | .report _ rs _ => rs
  | .fatal _ _ => []

/-- Model of `sql_agent_node` (`nodes.py` lines 196-265).  `parsed` is
the result of `json.loads` on the supervisor's message: `.error e` is any
exception in the node-level `try` (unparseable message, missing keys),
which produces the fatal shape; otherwise the node filters the
`sql_agent` tasks, runs each through the per-task loop, and always
reports `status: success`. -/
def sql_agent_node {α : Type} (ex : Task → PyResult α)
    (parsed : Except String Analysis) : NodeOutput α :=
  match parsed with
  | .error e => .fatal ("Failed to process SQL tasks: " ++ e) 0
  | .ok a => .report "success" (sql_results ex a.tasks) a

/-- Model of `nosql_agent_node` (`nodes.py` lines 270-344), symmetric to
`sql_agent_node`. -/
def nosql_agent_node {α : Type} (ex : Task → PyResult α)
    (parsed : Except String Analysis) : NodeOutput α :=
  match parsed with
  | .error e => .fatal ("Failed to process NoSQL tasks: " ++ e) 0
  | .ok a => .report "success" (nosql_results ex a.tasks) a

/-- The analysis both executor nodes receive when the supervisor
succeeded on `a`: the supervisor's message carries the priority-sorted
task list and the original context (`graph.py` lines 15-24 wire
`supervisor_node` into both executor nodes). -/
def dispatched (a : Analysis) : Analysis := ⟨sortTasks a.tasks, a.context⟩

/-- The sequence in which `sql_agent_node` dispatches tasks to the SQL
executor: the `sql_agent` entries of the supervisor's sorted list, in
list order (the node's `for` loop). -/
def sqlDispatchSeq (a : Analysis) : List Task :=
  (sortTasks a.tasks).filter isSqlTask

/-- The sequence in which `nosql_agent_node` dispatches tasks. -/
def nosqlDispatchSeq (a : Analysis) : List Task :=
  (sortTasks a.tasks).filter isNoSqlTask

/-- All TaskResults the request produces for a batch `a`: the
`sql_results` of the SQL node followed by the `nosql_results` of the
NoSQL node (the two parallel branches of the graph; no other component
produces results). -/
def pipelineResults {α : Type} (sex nex : Task → PyResult α) (a : Analysis) :
    List (TaskEntry α) :=
  sql_results sex (dispatched a).tasks ++ nosql_results nex (dispatched a).tasks

/-- The executor oracle a task is routed to, by its `agent` tag. -/
def oracleOf {α : Type} (sex nex : Task → PyResult α) (t : Task) : PyResult α :=
  if isSqlTask t then sex t else nex t

theorem runTaskSql_task {α : Type} (ex : Task → PyResult α) (t : Task) :
    (runTaskSql ex t).task = t := by
  unfold runTaskSql
  cases ex t <;> rfl

theorem runTaskNoSql_task {α : Type} (ex : Task → PyResult α) (t : Task) :
    (runTaskNoSql ex t).task = t := by
  unfold runTaskNoSql
  cases ex t <;> rfl

/-- Every agent kind with a registered executor node. -/
def knownAgentKind (t : Task) : Bool := isSqlTask t || isNoSqlTask t

theorem filter_isSqlTask_known (l : List Task) :
    (l.filter knownAgentKind).filter isSqlTask = l.filter isSqlTask := by
  rw [List.filter_filter]
  apply List.filter_congr
  intro t _
  cases h : isSqlTask t <;> simp [knownAgentKind, h]

theorem filter_isNoSqlTask_known (l : List Task) :
    (l.filter knownAgentKind).filter isNoSqlTask = l.filter isNoSqlTask := by
  rw [List.filter_filter]
  apply List.filter_congr
  intro t _
  cases h : isNoSqlTask t <;> simp [knownAgentKind, h]

/-- C1: for every TaskBatch, the supervisor's scheduled task sequence is a
permutation of the input tasks (no task lost or duplicated), is sorted by
priority descending, and breaks ties between equal-priority tasks by the
original emission order: for each priority value, the sub-sequence of
tasks with that priority is exactly the input's sub-sequence, unchanged
(stable sort). -/
theorem scheduler_sorts_by_priority_stably (a : Analysis) :
    List.Perm (supervisor_node (.ok a)).taskList a.tasks ∧
    List.Sorted taskGe (supervisor_node (.ok a)).taskList ∧
    ∀ p : Int, (supervisor_node (.ok a)).taskList.filter (fun t => t.priority == p)
        = a.tasks.filter (fun t => t.priority == p) := by
  have h : (supervisor_node (.ok a)).taskList = sortTasks a.tasks := rfl
  rw [h]
  exact ⟨sortTasks_perm a.tasks, sortTasks_sorted a.tasks,
    fun p => sortTasks_stable a.tasks p⟩

/-- A sample context object for concrete batches. -/
def exCtx : Context := ⟨["d"], ["r"], ⟨3, "none"⟩⟩

def depTaskLow : Task := ⟨"sql_agent", "q0", "p0", 1, []⟩

def depTaskHigh : Task := ⟨"sql_agent", "q1", "p1", 5, [0]⟩

/-- A batch whose second task (index 1) declares a dependency on the task
at index 0 but carries a higher priority. -/
def depBatch : Analysis := ⟨[depTaskLow, depTaskHigh], exCtx⟩

/-- A SQL-executor oracle that always succeeds with payload `"ok"`. -/
def okSqlOracle : Task → PyResult String := fun _ => .dict "ok"

/-- A NoSQL-executor oracle that always succeeds with payload `"ok"`. -/
def okNoSqlOracle : Task → PyResult String := fun _ => .dict "ok"

/-- C2 counterexample: in `depBatch`, the task at index 1 declares a
dependency on index 0, yet the SQL node dispatches it first — its
TaskResult is emitted before the dependency's TaskResult exists — because
dispatch order is the priority sort and dependencies are never consulted. -/
theorem dependency_dispatched_before_dependency_result :
    depTaskHigh.dependencies = [0] ∧
    depBatch.tasks.get? 0 = some depTaskLow ∧
    depBatch.tasks.get? 1 = some depTaskHigh ∧
    sqlDispatchSeq depBatch = [depTaskHigh, depTaskLow] ∧
    (sql_results okSqlOracle (dispatched depBatch).tasks).map TaskEntry.task
      = [depTaskHigh, depTaskLow] := by decide

/-- Rewrite a task's dependency list, leaving every other field alone. -/
def setDeps (g : Task → List Nat) (t : Task) : Task :=
  ⟨t.agent, t.taskDefinition, t.purpose, t.priority, g t⟩

/-- C2 amended: dependencies are not enforced.  The dispatch sequence of
each executor node is the priority-sorted order restricted to that node's
kind, and it is invariant under arbitrary rewriting of every task's
dependency list, so a task can be dispatched before the tasks at its
declared dependency indices have produced any TaskResult. -/
theorem dispatch_order_ignores_dependencies (g : Task → List Nat) (a : Analysis) :
    sqlDispatchSeq ⟨a.tasks.map (setDeps g), a.context⟩
        = (sqlDispatchSeq a).map (setDeps g) ∧
    nosqlDispatchSeq ⟨a.tasks.map (setDeps g), a.context⟩
        = (nosqlDispatchSeq a).map (setDeps g) := by
  constructor
  · show (sortTasks (a.tasks.map (setDeps g))).filter isSqlTask
        = ((sortTasks a.tasks).filter isSqlTask).map (setDeps g)
    rw [map_sortTasks (setDeps g) (fun _ => rfl), List.filter_map]
    congr 1
  · show (sortTasks (a.tasks.map (setDeps g))).filter isNoSqlTask
        = ((sortTasks a.tasks).filter isNoSqlTask).map (setDeps g)
    rw [map_sortTasks (setDeps g) (fun _ => rfl), List.filter_map]
    congr 1

def siblingTask : Task := ⟨"sql_agent", "qs", "ps", 4, []⟩

def unknownTask : Task := ⟨"unknown_kind", "qu", "pu", 3, []⟩

/-- A batch holding one `sql_agent` task and one task of an unregistered
kind. -/
def unknownBatch : Analysis := ⟨[siblingTask, unknownTask], exCtx⟩

/-- C3 counterexample: the task tagged `"unknown_kind"` yields no
TaskResult at all — the batch's combined results hold exactly the sibling
task's Success entry, and in particular no Failure with message
`"no executor available"` is recorded anywhere. -/
theorem unknown_kind_yields_no_failure_record :
    unknownTask ∈ unknownBatch.tasks ∧
    pipelineResults okSqlOracle okNoSqlOracle unknownBatch
      = [⟨siblingTask, .result "ok"⟩] := by decide

/-- C3 amended: a task whose declared kind has no registered executor is
silently dropped: it contributes no TaskResult (so no
`"no executor available"` Failure exists), and the batch's results are
exactly those of the batch with the unregistered-kind tasks removed, so
sibling tasks complete unaffected. -/
theorem unknown_kind_silently_dropped {α : Type} (sex nex : Task → PyResult α)
    (a : Analysis) :
    pipelineResults sex nex a
      = pipelineResults sex nex ⟨a.tasks.filter knownAgentKind, a.context⟩ ∧
    ∀ e ∈ pipelineResults sex nex a, knownAgentKind e.task = true := by
  constructor
  · show sql_results sex (sortTasks a.tasks) ++ nosql_results nex (sortTasks a.tasks)
        = sql_results sex (sortTasks (a.tasks.filter knownAgentKind))
            ++ nosql_results nex (sortTasks (a.tasks.filter knownAgentKind))
    unfold sql_results nosql_results
    rw [filter_sortTasks isSqlTask a.tasks,
      filter_sortTasks isNoSqlTask a.tasks,
      filter_sortTasks isSqlTask (a.tasks.filter knownAgentKind),
      filter_sortTasks isNoSqlTask (a.tasks.filter knownAgentKind),
      filter_isSqlTask_known, filter_isNoSqlTask_known]
  · intro e he
    rcases List.mem_append.mp he with h | h
    · rcases List.mem_map.mp h with ⟨t, ht, rfl⟩
      rw [runTaskSql_task]
      have : isSqlTask t = true := List.of_mem_filter ht
      simp [knownAgentKind, this]
    · rcases List.mem_map.mp h with ⟨t, ht, rfl⟩
      rw [runTaskNoSql_task]
      have : isNoSqlTask t = true := List.of_mem_filter ht
      simp [knownAgentKind, this]

/-- C3 amended, witnessed at the concrete batch `unknownBatch`. -/
theorem unknown_kind_silently_dropped_witness :
    pipelineResults okSqlOracle okNoSqlOracle unknownBatch
      = pipelineResults okSqlOracle okNoSqlOracle
          ⟨unknownBatch.tasks.filter knownAgentKind, unknownBatch.context⟩ ∧
    ∀ e ∈ pipelineResults okSqlOracle okNoSqlOracle unknownBatch,
      knownAgentKind e.task = true :=
  unknown_kind_silently_dropped okSqlOracle okNoSqlOracle unknownBatch

/-- C4: `_is_read_query` trims and uppercases the query text and reports
read-only exactly when the result starts with `SELECT`, `PRAGMA` or
`EXPLAIN`; the four sample statements of the spec classify as stated, and
leading whitespace or lowercase spelling does not change the outcome. -/
theorem read_query_classification :
    (∀ s : String, is_read_query s = true ↔
      (pyStarts (pyUpper (pyStrip s)) "SELECT" = true ∨
       pyStarts (pyUpper (pyStrip s)) "PRAGMA" = true ∨
       pyStarts (pyUpper (pyStrip s)) "EXPLAIN" = true)) ∧
    is_read_query "SELECT * FROM customers" = true ∧
    is_read_query "INSERT INTO customers VALUES (...)" = false ∧
    is_read_query "UPDATE customers SET ..." = false ∧
    is_read_query "DELETE FROM customers WHERE ..." = false ∧
    is_read_query "  select * from customers  " = true := by
  refine ⟨?_, by decide, by decide, by decide, by decide, by decide⟩
  intro s
  simp [is_read_query, Bool.or_eq_true, or_assoc]

/-- A task with every invariant of the claimed validation broken:
priority 99 outside `[1,5]`, agent tag outside the enumeration, and a
dependency index that is out of range (and not an earlier task). -/
def invalidTask : Task := ⟨"bogus_agent", "q", "p", 99, [7]⟩

def invalidBatch : Analysis := ⟨[invalidTask], exCtx⟩

/-- C7 counterexample: the supervisor accepts a parsed analysis whose
only task violates the priority range, the agent enumeration and the
dependency-index rule, and schedules it — no DecompositionError shape is
produced. -/
theorem invalid_analysis_scheduled :
    invalidTask.priority = 99 ∧
    invalidTask.agent = "bogus_agent" ∧
    invalidTask.dependencies = [7] ∧
    invalidBatch.tasks.length = 1 ∧
    (supervisor_node (.ok invalidBatch)).isFatal = false ∧
    (supervisor_node (.ok invalidBatch)).taskList = [invalidTask] := by decide

/-- C7 amended: the Decomposer performs no schema validation.  Output
that fails to parse (or lacks the expected keys) is fatal to the whole
batch — the error shape is emitted and no task is scheduled — but every
successfully parsed analysis is scheduled in full, priorities, agent tags
and dependency indices unchecked. -/
theorem decomposition_parse_failure_fatal_no_validation :
    (∀ e : String, supervisor_node (.error e)
        = .error ("Failed to analyze query: " ++ e) 0) ∧
    (∀ e : String, (supervisor_node (.error e)).taskList = []) ∧
    (∀ a : Analysis, (supervisor_node (.ok a)).isFatal = false ∧
      List.Perm (supervisor_node (.ok a)).taskList a.tasks) :=
  ⟨fun _ => rfl, fun _ => rfl, fun a => ⟨rfl, sortTasks_perm a.tasks⟩⟩

/-- A store oracle that answers every statement with one row. -/
def constStore : String → PyOutcome (StoreResult String) :=
  fun _ => .ok ⟨["col"], [["val"]], 0⟩

/-- A `sqlite_master` oracle with one table definition. -/
def okMaster : PyOutcome (List String) := .ok ["CREATE TABLE t(x)"]

/-- A language-model oracle that always answers with an EXPLAIN query. -/
def explainLlm : String → String → PyOutcome String :=
  fun _ _ => .ok "EXPLAIN SELECT 1"

/-- C5: evaluation of the executor at the failing input
`"EXPLAIN SELECT 1"`.  The code's own classifier `_is_read_query` reports
the query read-only, but `execute_query`'s inline branch tests only
`SELECT` and `PRAGMA`, so the EXPLAIN query is routed to the mutating
branch: the store's transaction is committed and the payload is the
rows-affected message instead of the row set. -/
theorem explain_query_committed_not_fetched :
    is_read_query "EXPLAIN SELECT 1" = true ∧
    exec_read_check "EXPLAIN SELECT 1" = false ∧
    (execute_and_fetch constStore "EXPLAIN SELECT 1" 0).1
      = .ok (.success_message "EXPLAIN SELECT 1" 0) ∧
    ConnEvent.commit 0 ∈ (execute_and_fetch constStore "EXPLAIN SELECT 1" 0).2 ∧
    (execute_query okMaster explainLlm constStore "show the plan" 0).1
      = .success_message "EXPLAIN SELECT 1" 0 := by decide

/-- C9: `SQLAgent.execute_query` is total at its interface.  Whatever the
schema read, the query generation and the store execution do — including
raising — the function returns a dict: when the `try` body raises, the
returned dict is the error dict carrying the raw message and the bound
query, with status `"error"`; when the body returns, its dict is returned
unchanged.  Because the node accepts any dict, the entry recorded in
`sql_results` always carries the dict under the `result` key, never under
the `error` key. -/
theorem execute_query_total_interface {σ : Type} (master : PyOutcome (List String))
    (llm : String → String → PyOutcome String)
    (store : String → PyOutcome (StoreResult σ)) (prompt : String) (n : Nat)
    (t : Task) :
    (∀ m sq tr n2,
      execute_query_body master llm store prompt n = (.raise m, sq, tr, n2) →
        (execute_query master llm store prompt n).1 = .error sq m ∧
        ((execute_query master llm store prompt n).1).status = "error") ∧
    (∀ d sq tr n2,
      execute_query_body master llm store prompt n = (.ok d, sq, tr, n2) →
        (execute_query master llm store prompt n).1 = d) ∧
    runTaskSql (fun _ => PyResult.dict (execute_query master llm store prompt n).1) t
      = ⟨t, .result (execute_query master llm store prompt n).1⟩ := by
  refine ⟨?_, ?_, rfl⟩
  · intro m sq tr n2 h
    unfold execute_query
    rw [h]
    exact ⟨rfl, rfl⟩
  · intro d sq tr n2 h
    unfold execute_query
    rw [h]

/-- A store oracle that raises on every statement. -/
def failStore : String → PyOutcome (StoreResult String) :=
  fun _ => .raise "no such table: t"

/-- A language-model oracle answering with a fixed SELECT. -/
def selectLlm : String → String → PyOutcome String :=
  fun _ _ => .ok "SELECT * FROM t"

def probeTask : Task := ⟨"sql_agent", "get rows", "demo", 3, []⟩

/-- C9 witnessed at a store that raises: the raise is satisfiable, the
returned dict is the error dict with the raw message, and the node entry
records it under `result`. -/
theorem execute_query_total_interface_witness :
    ((execute_query okMaster selectLlm failStore "get rows" 0).1
        = .error (some "SELECT * FROM t") "no such table: t" ∧
      ((execute_query okMaster selectLlm failStore "get rows" 0).1).status
        = "error") ∧
    runTaskSql
        (fun _ => PyResult.dict (execute_query okMaster selectLlm failStore "get rows" 0).1)
        probeTask
      = ⟨probeTask, .result (execute_query okMaster selectLlm failStore "get rows" 0).1⟩ :=
  ⟨(execute_query_total_interface okMaster selectLlm failStore "get rows" 0 probeTask).1
      "no such table: t" (some "SELECT * FROM t")
      [ConnEvent.acquire 0, ConnEvent.use 0, ConnEvent.release 0,
        ConnEvent.acquire 1, ConnEvent.use 1, ConnEvent.release 1] 2 (by decide),
    (execute_query_total_interface okMaster selectLlm failStore "get rows" 0 probeTask).2.2⟩

theorem sql_nosql_disjoint (t : Task) :
    ¬(isSqlTask t = true ∧ isNoSqlTask t = true) := by
  rintro ⟨h1, h2⟩
  have e1 : t.agent = "sql_agent" := by simpa [isSqlTask] using h1
  have e2 : t.agent = "nosql_agent" := by simpa [isNoSqlTask] using h2
  rw [e1] at e2
  exact absurd e2 (by decide)

theorem filter_partition_length (p q : Task → Bool) :
    ∀ l : List Task, (∀ t ∈ l, p t = true ∨ q t = true) →
      (∀ t ∈ l, ¬(p t = true ∧ q t = true)) →
      (l.filter p).length + (l.filter q).length = l.length := by
  intro l
  induction l with
  | nil => intro _ _; rfl
  | cons a l ih =>
    intro h1 h2
    have ih2 := ih (fun t ht => h1 t (List.mem_cons_of_mem a ht))
      (fun t ht => h2 t (List.mem_cons_of_mem a ht))
    rcases h1 a (List.mem_cons_self a l) with hp | hq
    · have hqa : q a = false := by
        cases hqv : q a
        · rfl
        · exact absurd ⟨hp, hqv⟩ (h2 a (List.mem_cons_self a l))
      simp [List.filter_cons, hp, hqa]
      omega
    · have hpa : p a = false := by
        cases hpv : p a
        · rfl
        · exact absurd ⟨hpv, hq⟩ (h2 a (List.mem_cons_self a l))
      simp [List.filter_cons, hq, hpa]
      omega

theorem countP_filter_partition (p q r : Task → Bool) :
    ∀ l : List Task, (∀ t ∈ l, p t = true ∨ q t = true) →
      (∀ t ∈ l, ¬(p t = true ∧ q t = true)) →
      (l.filter p).countP r + (l.filter q).countP r = l.countP r := by
  intro l
  induction l with
  | nil => intro _ _; rfl
  | cons a l ih =>
    intro h1 h2
    have ih2 := ih (fun t ht => h1 t (List.mem_cons_of_mem a ht))
      (fun t ht => h2 t (List.mem_cons_of_mem a ht))
    rcases h1 a (List.mem_cons_self a l) with hp | hq
    · have hqa : q a = false := by
        cases hqv : q a
        · rfl
        · exact absurd ⟨hp, hqv⟩ (h2 a (List.mem_cons_self a l))
      simp [List.filter_cons, hp, hqa, List.countP_cons]
      omega
    · have hpa : p a = false := by
        cases hpv : p a
        · rfl
        · exact absurd ⟨hpv, hq⟩ (h2 a (List.mem_cons_self a l))
      simp [List.filter_cons, hq, hpa, List.countP_cons]
      omega

/-- C6: per-task failure isolation.  For a five-task batch routed to the
two executor nodes in which exactly one task's execution raises (and no
call returns a non-dict), both node reports have status `success`, the
combined results hold five TaskResults of which exactly one is a Failure,
and each entry is determined by its own task's executor call alone: a
Failure entry carries that call's raw error message, and every sibling's
entry carries that call's success payload unchanged. -/
theorem single_task_failure_isolated {α : Type} (sex nex : Task → PyResult α)
    (a : Analysis)
    (h5 : a.tasks.length = 5)
    (hk : ∀ t ∈ a.tasks, isSqlTask t = true ∨ isNoSqlTask t = true)
    (hnd : ∀ t ∈ a.tasks, oracleOf sex nex t ≠ PyResult.nondict)
    (h1 : a.tasks.countP (fun t => (oracleOf sex nex t).isRaise) = 1) :
    (sql_agent_node sex (.ok (dispatched a))).statusOf = some "success" ∧
    (nosql_agent_node nex (.ok (dispatched a))).statusOf = some "success" ∧
    (pipelineResults sex nex a).length = 5 ∧
    (pipelineResults sex nex a).countP TaskEntry.isFailure = 1 ∧
    (∀ e ∈ pipelineResults sex nex a,
      (e.isFailure = true →
        ∃ m, oracleOf sex nex e.task = .raise m ∧ e.outcome = .error m) ∧
      (e.isFailure = false →
        ∃ d, oracleOf sex nex e.task = .dict d ∧ e.outcome = .result d)) := by
  have hperm := sortTasks_perm a.tasks
  have hkL : ∀ t ∈ sortTasks a.tasks, isSqlTask t = true ∨ isNoSqlTask t = true :=
    fun t ht => hk t (hperm.mem_iff.mp ht)
  have hndL : ∀ t ∈ sortTasks a.tasks, oracleOf sex nex t ≠ PyResult.nondict :=
    fun t ht => hnd t (hperm.mem_iff.mp ht)
  have hdisj : ∀ t ∈ sortTasks a.tasks, ¬(isSqlTask t = true ∧ isNoSqlTask t = true) :=
    fun t _ => sql_nosql_disjoint t
  have hpipe : pipelineResults sex nex a
      = ((sortTasks a.tasks).filter isSqlTask).map (runTaskSql sex)
        ++ ((sortTasks a.tasks).filter isNoSqlTask).map (runTaskNoSql nex) := rfl
  refine ⟨rfl, rfl, ?_, ?_, ?_⟩
  · rw [hpipe, List.length_append, List.length_map, List.length_map,
      filter_partition_length isSqlTask isNoSqlTask (sortTasks a.tasks) hkL hdisj,
      hperm.length_eq, h5]
  · rw [hpipe, List.countP_append, List.countP_map, List.countP_map]
    have hsql : ((sortTasks a.tasks).filter isSqlTask).countP
        (TaskEntry.isFailure ∘ runTaskSql sex)
        = ((sortTasks a.tasks).filter isSqlTask).countP
            (fun t => (oracleOf sex nex t).isRaise) := by
      apply List.countP_congr
      intro t ht
      have hs : isSqlTask t = true := List.of_mem_filter ht
      have hn : oracleOf sex nex t ≠ PyResult.nondict :=
        hndL t (List.mem_of_mem_filter ht)
      have ho : oracleOf sex nex t = sex t := by simp [oracleOf, hs]
      rw [ho] at hn ⊢
      cases hex : sex t with
      | dict d => simp [runTaskSql, hex, TaskEntry.isFailure, PyResult.isRaise]
      | nondict => exact absurd hex hn
      | raise m => simp [runTaskSql, hex, TaskEntry.isFailure, PyResult.isRaise]
    have hnosql : ((sortTasks a.tasks).filter isNoSqlTask).countP
        (TaskEntry.isFailure ∘ runTaskNoSql nex)
        = ((sortTasks a.tasks).filter isNoSqlTask).countP
            (fun t => (oracleOf sex nex t).isRaise) := by
      apply List.countP_congr
      intro t ht
      have hs : isNoSqlTask t = true := List.of_mem_filter ht
      have hsf : isSqlTask t = false := by
        cases hv : isSqlTask t
        · rfl
        · exact absurd ⟨hv, hs⟩ (sql_nosql_disjoint t)
      have hn : oracleOf sex nex t ≠ PyResult.nondict :=
        hndL t (List.mem_of_mem_filter ht)
      have ho : oracleOf sex nex t = nex t := by simp [oracleOf, hsf]
      rw [ho] at hn ⊢
      cases hex : nex t with
      | dict d => simp [runTaskNoSql, hex, TaskEntry.isFailure, PyResult.isRaise]
      | nondict => exact absurd hex hn
      | raise m => simp [runTaskNoSql, hex, TaskEntry.isFailure, PyResult.isRaise]
    rw [hsql, hnosql,
      countP_filter_partition isSqlTask isNoSqlTask _ (sortTasks a.tasks) hkL hdisj,
      hperm.countP_eq, h1]
  · intro e he
    rw [hpipe] at he
    rcases List.mem_append.mp he with h | h
    · rcases List.mem_map.mp h with ⟨t, ht, rfl⟩
      have hs : isSqlTask t = true := List.of_mem_filter ht
      have hn : oracleOf sex nex t ≠ PyResult.nondict :=
        hndL t (List.mem_of_mem_filter ht)
      have ho : oracleOf sex nex t = sex t := by simp [oracleOf, hs]
      cases hex : sex t with
      | dict d =>
        refine ⟨fun hf => ?_, fun _ => ⟨d, ?_, ?_⟩⟩
        · rw [runTaskSql, hex] at hf
          simp [TaskEntry.isFailure] at hf
        · rw [runTaskSql_task, ho, hex]
        · rw [runTaskSql, hex]
      | nondict => exact absurd hex (ho ▸ hn)
      | raise m =>
        refine ⟨fun _ => ⟨m, ?_, ?_⟩, fun hf => ?_⟩
        · rw [runTaskSql_task, ho, hex]
        · rw [runTaskSql, hex]
        · rw [runTaskSql, hex] at hf
          simp [TaskEntry.isFailure] at hf
    · rcases List.mem_map.mp h with ⟨t, ht, rfl⟩
      have hs : isNoSqlTask t = true := List.of_mem_filter ht
      have hsf : isSqlTask t = false := by
        cases hv : isSqlTask t
        · rfl
        · exact absurd ⟨hv, hs⟩ (sql_nosql_disjoint t)
      have hn : oracleOf sex nex t ≠ PyResult.nondict :=
        hndL t (List.mem_of_mem_filter ht)
      have ho : oracleOf sex nex t = nex t := by simp [oracleOf, hsf]
      cases hex : nex t with
      | dict d =>
        refine ⟨fun hf => ?_, fun _ => ⟨d, ?_, ?_⟩⟩
        · rw [runTaskNoSql, hex] at hf
          simp [TaskEntry.isFailure] at hf
        · rw [runTaskNoSql_task, ho, hex]
        · rw [runTaskNoSql, hex]
      | nondict => exact absurd hex (ho ▸ hn)
      | raise m =>
        refine ⟨fun _ => ⟨m, ?_, ?_⟩, fun hf => ?_⟩
        · rw [runTaskNoSql_task, ho, hex]
        · rw [runTaskNoSql, hex]
        · rw [runTaskNoSql, hex] at hf
          simp [TaskEntry.isFailure] at hf

def wTask1 : Task := ⟨"sql_agent", "s1", "p", 5, []⟩

def wTask2 : Task := ⟨"sql_agent", "s2", "p", 4, []⟩

def wTask3 : Task := ⟨"nosql_agent", "n1", "p", 3, []⟩

def wTask4 : Task := ⟨"sql_agent", "s3", "p", 2, []⟩

def wTask5 : Task := ⟨"nosql_agent", "n2", "p", 1, []⟩

/-- A five-task batch split over both executor kinds. -/
def wBatch : Analysis := ⟨[wTask1, wTask2, wTask3, wTask4, wTask5], exCtx⟩

/-- A SQL-executor oracle that raises on the task defined by `"s2"` and
succeeds on every other task. -/
def wSqlOracle : Task → PyResult String :=
  fun t => if t.taskDefinition == "s2" then .raise "boom" else .dict "ok"

/-- C6 witnessed at the concrete five-task batch `wBatch` with exactly
one raising execution. -/
theorem single_task_failure_isolated_witness :
    (sql_agent_node wSqlOracle (.ok (dispatched wBatch))).statusOf = some "success" ∧
    (nosql_agent_node okNoSqlOracle (.ok (dispatched wBatch))).statusOf = some "success" ∧
    (pipelineResults wSqlOracle okNoSqlOracle wBatch).length = 5 ∧
    (pipelineResults wSqlOracle okNoSqlOracle wBatch).countP TaskEntry.isFailure = 1 ∧
    (∀ e ∈ pipelineResults wSqlOracle okNoSqlOracle wBatch,
      (e.isFailure = true →
        ∃ m, oracleOf wSqlOracle okNoSqlOracle e.task = .raise m ∧
          e.outcome = .error m) ∧
      (e.isFailure = false →
        ∃ d, oracleOf wSqlOracle okNoSqlOracle e.task = .dict d ∧
          e.outcome = .result d)) :=
  single_task_failure_isolated wSqlOracle okNoSqlOracle wBatch rfl
    (by decide) (by decide) (by decide)

/-- A trace is one properly scoped connection `i`: acquired first,
released last, and everything in between is a use or commit of that same
connection. -/
def scoped_conn (i : Nat) (tr : List ConnEvent) : Prop :=
  ∃ mids, tr = ConnEvent.acquire i :: (mids ++ [ConnEvent.release i]) ∧
    ∀ e ∈ mids, e = ConnEvent.use i ∨ e = ConnEvent.commit i

theorem scoped_conn_single (n : Nat) :
    scoped_conn n [ConnEvent.acquire n, ConnEvent.use n, ConnEvent.release n] := by
  refine ⟨[ConnEvent.use n], rfl, ?_⟩
  intro e he
  simp at he
  subst he
  exact Or.inl rfl

theorem scoped_conn_with_commit (n : Nat) :
    scoped_conn n [ConnEvent.acquire n, ConnEvent.use n, ConnEvent.commit n,
      ConnEvent.release n] := by
  refine ⟨[ConnEvent.use n, ConnEvent.commit n], rfl, ?_⟩
  intro e he
  simp at he
  rcases he with rfl | rfl
  · exact Or.inl rfl
  · exact Or.inr rfl

theorem fetch_schema_trace (master : PyOutcome (List String)) (n : Nat) :
    (fetch_schema master n).2
      = [ConnEvent.acquire n, ConnEvent.use n, ConnEvent.release n] := by
  cases master <;> rfl

theorem execute_and_fetch_trace {σ : Type} (store : String → PyOutcome (StoreResult σ))
    (sql : String) (n : Nat) :
    (execute_and_fetch store sql n).2
        = [ConnEvent.acquire n, ConnEvent.use n, ConnEvent.release n] ∨
    (execute_and_fetch store sql n).2
        = [ConnEvent.acquire n, ConnEvent.use n, ConnEvent.commit n,
            ConnEvent.release n] := by
  unfold execute_and_fetch withConn
  cases hs : store sql with
  | raise m => left; simp [hs]
  | ok r =>
    by_cases h : exec_read_check sql
    · left; simp [hs, h]
    · right; simp [hs, h]

/-- The full connection trace of one `execute_query` call: the schema
fetch's scoped connection `n`, followed — when execution reaches the
second operation — by `execute_and_fetch`'s scoped connection `n + 1`. -/
theorem execute_query_trace_shape {σ : Type} (master : PyOutcome (List String))
    (llm : String → String → PyOutcome String)
    (store : String → PyOutcome (StoreResult σ)) (prompt : String) (n : Nat) :
    ((execute_query master llm store prompt n).2.1
        = [ConnEvent.acquire n, ConnEvent.use n, ConnEvent.release n] ∧
      (execute_query master llm store prompt n).2.2 = n + 1) ∨
    (∃ t2, (execute_query master llm store prompt n).2.1
        = [ConnEvent.acquire n, ConnEvent.use n, ConnEvent.release n] ++ t2 ∧
      (t2 = [ConnEvent.acquire (n + 1), ConnEvent.use (n + 1),
          ConnEvent.release (n + 1)] ∨
        t2 = [ConnEvent.acquire (n + 1), ConnEvent.use (n + 1),
          ConnEvent.commit (n + 1), ConnEvent.release (n + 1)]) ∧
      (execute_query master llm store prompt n).2.2 = n + 2) := by
  unfold execute_query execute_query_body
  cases master with
  | raise m =>
    left
    refine ⟨?_, ?_⟩ <;> rfl
  | ok ss =>
    cases hllm : llm (String.intercalate "\n" ss) prompt with
    | raise m =>
      left
      simp only [fetch_schema, withConn, hllm]
      exact ⟨rfl, trivial⟩
    | ok content =>
      right
      rcases hef : execute_and_fetch store (pyStrip content) (n + 1) with ⟨res, tr2⟩
      have htr2 := execute_and_fetch_trace store (pyStrip content) (n + 1)
      rw [hef] at htr2
      refine ⟨tr2, ?_, htr2, ?_⟩ <;>
        · simp only [fetch_schema, withConn, hllm, hef]
          cases res <;> rfl

theorem execute_query_conn_bounds {σ : Type} (master : PyOutcome (List String))
    (llm : String → String → PyOutcome String)
    (store : String → PyOutcome (StoreResult σ)) (prompt : String) (n : Nat) :
    ∀ e ∈ (execute_query master llm store prompt n).2.1,
      n ≤ e.connId ∧ e.connId < (execute_query master llm store prompt n).2.2 := by
  rcases execute_query_trace_shape master llm store prompt n with
    ⟨h1, h2⟩ | ⟨t2, h1, ht2, h2⟩
  · rw [h1, h2]
    intro e he
    fin_cases he <;> simp only [ConnEvent.connId] <;> omega
  · rcases ht2 with rfl | rfl <;>
      · rw [h1, h2]
        intro e he
        fin_cases he <;> simp only [ConnEvent.connId] <;> omega

theorem execute_query_lt_nextId {σ : Type} (master : PyOutcome (List String))
    (llm : String → String → PyOutcome String)
    (store : String → PyOutcome (StoreResult σ)) (prompt : String) (n : Nat) :
    n < (execute_query master llm store prompt n).2.2 := by
  rcases execute_query_trace_shape master llm store prompt n with
    ⟨_, h2⟩ | ⟨_, _, _, h2⟩ <;> omega

theorem run_sql_defs_le_nextId {σ : Type} (master : PyOutcome (List String))
    (llm : String → String → PyOutcome String)
    (store : String → PyOutcome (StoreResult σ)) :
    ∀ (ds : List String) (n : Nat),
      n ≤ (run_sql_defs master llm store ds n).2 := by
  intro ds
  induction ds with
  | nil => intro n; exact le_refl n
  | cons d ds ih =>
    intro n
    have h1 := execute_query_lt_nextId master llm store d n
    have h2 := ih (execute_query master llm store d n).2.2
    show n ≤ (run_sql_defs master llm store ds
      (execute_query master llm store d n).2.2).2
    omega

theorem run_sql_defs_bounds {σ : Type} (master : PyOutcome (List String))
    (llm : String → String → PyOutcome String)
    (store : String → PyOutcome (StoreResult σ)) :
    ∀ (ds : List String) (n : Nat) r, r ∈ (run_sql_defs master llm store ds n).1 →
      ∀ e ∈ r.2, n ≤ e.connId ∧ e.connId < (run_sql_defs master llm store ds n).2 := by
  intro ds
  induction ds with
  | nil =>
    intro n r hr
    simp [run_sql_defs] at hr
  | cons d ds ih =>
    intro n r hr e he
    rcases List.mem_cons.mp hr with rfl | hr2
    · have hb := execute_query_conn_bounds master llm store d n e he
      have hm := run_sql_defs_le_nextId master llm store ds
        (execute_query master llm store d n).2.2
      exact ⟨hb.1, lt_of_lt_of_le hb.2 hm⟩
    · have hb := ih (execute_query master llm store d n).2.2 r hr2 e he
      have hn := execute_query_lt_nextId master llm store d n
      exact ⟨by omega, hb.2⟩

theorem run_sql_defs_conns_disjoint {σ : Type} (master : PyOutcome (List String))
    (llm : String → String → PyOutcome String)
    (store : String → PyOutcome (StoreResult σ)) :
    ∀ (ds : List String) (n : Nat),
      List.Pairwise (fun r1 r2 => ∀ e1 ∈ r1.2, ∀ e2 ∈ r2.2,
          ConnEvent.connId e1 ≠ ConnEvent.connId e2)
        (run_sql_defs master llm store ds n).1 := by
  intro ds
  induction ds with
  | nil => intro n; simp [run_sql_defs]
  | cons d ds ih =>
    intro n
    refine List.pairwise_cons.mpr ⟨?_, ih (execute_query master llm store d n).2.2⟩
    intro r hr e1 he1 e2 he2
    have h1 := execute_query_conn_bounds master llm store d n e1 he1
    have h2 := run_sql_defs_bounds master llm store ds
      (execute_query master llm store d n).2.2 r hr e2 he2
    omega

/-- C8: store connections are scoped per operation.  The schema fetch and
the query execution each open their own fresh connection and the trace of
each is a properly scoped segment — acquired first, released last — on
every exit path, the store raising included; one `execute_query` call
produces one or two such segments with distinct connection numbers; and
across the tasks of a batch run sequentially, no two tasks' traces ever
touch the same connection. -/
theorem store_connections_scoped_per_task {σ : Type}
    (master : PyOutcome (List String)) (llm : String → String → PyOutcome String)
    (store : String → PyOutcome (StoreResult σ)) (prompt : String) (n : Nat)
    (ds : List String) :
    scoped_conn n (fetch_schema master n).2 ∧
    (∀ sql m, scoped_conn m (execute_and_fetch store sql m).2) ∧
    (scoped_conn n (execute_query master llm store prompt n).2.1 ∨
      ∃ t1 t2, (execute_query master llm store prompt n).2.1 = t1 ++ t2 ∧
        scoped_conn n t1 ∧ scoped_conn (n + 1) t2) ∧
    (∀ e ∈ (execute_query master llm store prompt n).2.1,
      n ≤ e.connId ∧ e.connId < (execute_query master llm store prompt n).2.2) ∧
    List.Pairwise (fun r1 r2 => ∀ e1 ∈ r1.2, ∀ e2 ∈ r2.2,
        ConnEvent.connId e1 ≠ ConnEvent.connId e2)
      (run_sql_defs master llm store ds n).1 := by
  refine ⟨?_, ?_, ?_, execute_query_conn_bounds master llm store prompt n,
    run_sql_defs_conns_disjoint master llm store ds n⟩
  · rw [fetch_schema_trace]
    exact scoped_conn_single n
  · intro sql m
    rcases execute_and_fetch_trace store sql m with h | h <;> rw [h]
    · exact scoped_conn_single m
    · exact scoped_conn_with_commit m
  · rcases execute_query_trace_shape master llm store prompt n with
      ⟨h1, _⟩ | ⟨t2, h1, ht2, _⟩
    · left
      rw [h1]
      exact scoped_conn_single n
    · right
      refine ⟨_, t2, h1, scoped_conn_single n, ?_⟩
      rcases ht2 with rfl | rfl
      · exact scoped_conn_single (n + 1)
      · exact scoped_conn_with_commit (n + 1)

/-- C8 witnessed at concrete oracles, including a raising store (the
exception exit path) in the sequential run. -/
theorem store_connections_scoped_per_task_witness :
    scoped_conn 0 (fetch_schema okMaster 0).2 ∧
    (∀ sql m, scoped_conn m (execute_and_fetch failStore sql m).2) ∧
    (scoped_conn 0 (execute_query okMaster selectLlm failStore "get rows" 0).2.1 ∨
      ∃ t1 t2, (execute_query okMaster selectLlm failStore "get rows" 0).2.1
          = t1 ++ t2 ∧ scoped_conn 0 t1 ∧ scoped_conn 1 t2) ∧
    (∀ e ∈ (execute_query okMaster selectLlm failStore "get rows" 0).2.1,
      0 ≤ e.connId ∧
        e.connId < (execute_query okMaster selectLlm failStore "get rows" 0).2.2) ∧
    List.Pairwise (fun r1 r2 => ∀ e1 ∈ r1.2, ∀ e2 ∈ r2.2,
        ConnEvent.connId e1 ≠ ConnEvent.connId e2)
      (run_sql_defs okMaster selectLlm failStore ["get rows", "get more"] 0).1 :=
  store_connections_scoped_per_task okMaster selectLlm failStore "get rows" 0
    ["get rows", "get more"]

/-- C10: a well-formed analysis with an empty tasks list still succeeds:
the supervisor emits the normal decomposition shape with `total_tasks`
zero, an empty `task_types` list, and `highest_priority_task` null,
rather than the batch-level error shape. -/
theorem supervisor_accepts_empty_tasks (ctx : Context) :
    supervisor_node (.ok ⟨[], ctx⟩)
      = .success [] ctx 0 ctx.error_handling ⟨0, [], none⟩ := rfl

end Agent
